import Mathlib

/-!
Verification of the PST extraction backend (src/app.py) against its
natural-language specification.

The development shallowly embeds the core of src/app.py:
  * decode_if_bytes          (src/app.py lines 50-60)
  * process_pst_folder       (src/app.py lines 62-130)
  * the analyze-pst route's extraction core (src/app.py lines 173-205)

External pypff objects (folders, messages, attachments) are modelled as
trees whose accessor calls either return a value or raise, as an
Except Unit result.  Python strings are modelled as Lean String values
(sequences of Unicode code points); Python bytes as List Nat with
entries below 256.  Python exception handling is modelled explicitly:
every try/except of the source corresponds to a match on an Except
value, and mutations performed before an exception persist, exactly as
for Python list/csv mutation.
-/

/-- A raw pypff field value: Python None, a str, or a bytes object. -/
inductive PyVal : Type where
  | none : PyVal
  | str (s : String) : PyVal
  | bytes (bs : List Nat) : PyVal
deriving DecidableEq

/-- Python truthiness of a field value: None, the empty str and the empty
bytes are falsy, everything else is truthy (models `if not name:` /
`if name:` at src/app.py lines 92-94 and `if headers:` at line 79). -/
def pyTruthy : PyVal → Bool
  | PyVal.none => false
  | PyVal.str s => !(s == "")
  | PyVal.bytes bs => !bs.isEmpty

mutual
/-- UTF-8 decoder on byte lists, returning the decoded code points.
Models Python `bytes.decode('utf-8')` (src/app.py line 54): strict
decoding that rejects truncated sequences, stray continuation bytes,
overlong encodings, surrogate code points and code points above
U+10FFFF; `Option.none` models the UnicodeDecodeError. -/
def utf8DecodeAux : List Nat → Option (List Nat)
  | [] => some []
  | b0 :: rest =>
    if b0 < 0x80 then (utf8DecodeAux rest).map (fun cps => b0 :: cps)
    else if b0 < 0xC0 then Option.none
    else if b0 < 0xE0 then utf8Dec2 b0 rest
    else if b0 < 0xF0 then utf8Dec3 b0 rest
    else if b0 < 0xF8 then utf8Dec4 b0 rest
    else Option.none
/-- Continuation of a two-byte sequence: checks the continuation byte
and rejects overlong encodings (code points below U+0080). -/
def utf8Dec2 (b0 : Nat) : List Nat → Option (List Nat)
  | b1 :: rest1 =>
    if 0x80 ≤ b1 ∧ b1 < 0xC0 then
      if 0x80 ≤ (b0 - 0xC0) * 0x40 + (b1 - 0x80) then
        (utf8DecodeAux rest1).map (fun cps => ((b0 - 0xC0) * 0x40 + (b1 - 0x80)) :: cps)
      else Option.none
    else Option.none
  | [] => Option.none
/-- Continuation of a three-byte sequence: checks the continuation
bytes and rejects overlong encodings and surrogate code points. -/
def utf8Dec3 (b0 : Nat) : List Nat → Option (List Nat)
  | b1 :: b2 :: rest2 =>
    if (0x80 ≤ b1 ∧ b1 < 0xC0) ∧ (0x80 ≤ b2 ∧ b2 < 0xC0) then
      if 0x800 ≤ (b0 - 0xE0) * 0x1000 + (b1 - 0x80) * 0x40 + (b2 - 0x80)
          ∧ ¬ (0xD800 ≤ (b0 - 0xE0) * 0x1000 + (b1 - 0x80) * 0x40 + (b2 - 0x80)
              ∧ (b0 - 0xE0) * 0x1000 + (b1 - 0x80) * 0x40 + (b2 - 0x80) < 0xE000) then
        (utf8DecodeAux rest2).map
          (fun cps => ((b0 - 0xE0) * 0x1000 + (b1 - 0x80) * 0x40 + (b2 - 0x80)) :: cps)
      else Option.none
    else Option.none
  | _ => Option.none
/-- Continuation of a four-byte sequence: checks the continuation
bytes and rejects overlong encodings and code points above U+10FFFF. -/
def utf8Dec4 (b0 : Nat) : List Nat → Option (List Nat)
  | b1 :: b2 :: b3 :: rest3 =>
    if (0x80 ≤ b1 ∧ b1 < 0xC0) ∧ (0x80 ≤ b2 ∧ b2 < 0xC0) ∧ (0x80 ≤ b3 ∧ b3 < 0xC0) then
      if 0x10000 ≤ (b0 - 0xF0) * 0x40000 + (b1 - 0x80) * 0x1000 + (b2 - 0x80) * 0x40 + (b3 - 0x80)
          ∧ (b0 - 0xF0) * 0x40000 + (b1 - 0x80) * 0x1000 + (b2 - 0x80) * 0x40 + (b3 - 0x80) < 0x110000 then
        (utf8DecodeAux rest3).map
          (fun cps => ((b0 - 0xF0) * 0x40000 + (b1 - 0x80) * 0x1000
            + (b2 - 0x80) * 0x40 + (b3 - 0x80)) :: cps)
      else Option.none
    else Option.none
  | _ => Option.none
end

/-- UTF-8 decoding to a string (code points to characters). -/
def utf8Decode (bs : List Nat) : Option String :=
  (utf8DecodeAux bs).map (fun cps => String.mk (cps.map Char.ofNat))

/-- Whether a byte list is valid UTF-8 (Python: `bytes.decode('utf-8')`
succeeds). -/
def isValidUtf8 (bs : List Nat) : Bool :=
  (utf8DecodeAux bs).isSome

/-- Latin-1 decoding: every byte b becomes code point U+00(b).  Models
Python `bytes.decode('latin-1')` (src/app.py line 57), which succeeds on
every byte sequence. -/
def latin1Decode (bs : List Nat) : String :=
  String.mk (bs.map Char.ofNat)

/-- Shallow embedding of decode_if_bytes (src/app.py lines 50-60).
For bytes: try UTF-8, on UnicodeDecodeError fall back to Latin-1.  The
source's final bare-except fallback `str(value)` (line 59) is
unreachable, because Latin-1 decoding succeeds on every byte sequence,
so it does not appear in the model.  For non-bytes: `str(value)` if the
value is not None (the identity on str values), else the empty string. -/
def decode_if_bytes : PyVal → String
  | PyVal.bytes bs =>
    match utf8Decode bs with
    | some s => s
    | Option.none => latin1Decode bs
  | PyVal.str s => s
  | PyVal.none => ""

/-- The standard UTF-8 encoding of one Unicode scalar value. -/
def utf8EncodeChar (c : Nat) : List Nat :=
  if c < 0x80 then [c]
  else if c < 0x800 then [0xC0 + c / 0x40, 0x80 + c % 0x40]
  else if c < 0x10000 then
    [0xE0 + c / 0x1000, 0x80 + c / 0x40 % 0x40, 0x80 + c % 0x40]
  else
    [0xF0 + c / 0x40000, 0x80 + c / 0x1000 % 0x40, 0x80 + c / 0x40 % 0x40, 0x80 + c % 0x40]

/-- The standard UTF-8 encoding of a string. -/
def utf8Encode (s : String) : List Nat :=
  (s.data.map (fun ch => utf8EncodeChar ch.toNat)).flatten

/-- Python `s.split('\n')` (src/app.py line 80), on the character list:
split at every newline; n separators yield n+1 parts. -/
def splitNlAux : List Char → List Char → List (List Char)
  | [], acc => [acc.reverse]
  | c :: rest, acc =>
    if c = '\n' then acc.reverse :: splitNlAux rest []
    else splitNlAux rest (c :: acc)

/-- Python `headers.split('\n')` as a list of strings. -/
def pySplitNl (s : String) : List String :=
  (splitNlAux s.data []).map String.mk

/-- Python `s.lower()` (src/app.py line 81), restricted to the ASCII
case mapping letters A-Z; no other character lowercases to the ASCII
characters of the prefix under test. -/
def pyLower (s : String) : String :=
  String.mk (s.data.map Char.toLower)

/-- Python `s.startswith(pre)`. -/
def pyStartsWith (s pre : String) : Bool :=
  List.isPrefixOf pre.data s.data

/-- Python whitespace stripped by `str.strip()` (src/app.py line 82),
restricted to the ASCII whitespace characters TAB, LF, VT, FF, CR and
space. -/
def isPySpace (c : Char) : Bool :=
  c.toNat == 9 || c.toNat == 10 || c.toNat == 11 || c.toNat == 12 || c.toNat == 13 || c.toNat == 32

/-- Python `s.strip()`: drop leading and trailing whitespace. -/
def pyStrip (s : String) : String :=
  String.mk (((s.data.dropWhile isPySpace).reverse.dropWhile isPySpace).reverse)

/-- Python `s[3:]`: drop the first three code points. -/
def pyDrop3 (s : String) : String :=
  String.mk (s.data.drop 3)

/-- The header-line prefix under test at src/app.py line 81. -/
def toColon : String := "to:"

/-- Whether a header line matches `line.lower().startswith('to:')`
(src/app.py line 81). -/
def isToLine (line : String) : Bool :=
  pyStartsWith (pyLower line) toColon

/-- Recipient extraction (src/app.py lines 78-83): `to` starts as the
empty string; when the header blob is truthy, scan its newline-split
lines and take `line[3:].strip()` of the first line whose lowercasing
starts with `to:` (the `break` stops at the first match). -/
def extractTo (headers : String) : String :=
  if headers == "" then ""
  else
    match (pySplitNl headers).find? isToLine with
    | some line => pyStrip (pyDrop3 line)
    | Option.none => ""

deriving instance DecidableEq for Except

/-- A raw pypff attachment (external, read-only): both filename
accessors may raise (modelled by `Except.error ()`) or return a
possibly-absent, possibly-bytes value. -/
structure RawAttachment where
  longFilename : Except Unit PyVal
  shortFilename : Except Unit PyVal
deriving DecidableEq

/-- A raw pypff message (external, read-only).  Each accessor of the
source may raise.  The delivery time is modelled by the canonical
string rendering `str(t)` of the timestamp when present, and
`Option.none` when `get_delivery_time()` returns Python None. -/
structure RawMessage where
  senderName : Except Unit PyVal
  subject : Except Unit PyVal
  plainTextBody : Except Unit PyVal
  deliveryTime : Except Unit (Option String)
  transportHeaders : Except Unit PyVal
  attachmentCount : Except Unit Nat
  attachments : List (Except Unit RawAttachment)
deriving DecidableEq

/-- `str(delivery_time)` (src/app.py line 107): Python renders None as
the string "None", and a present timestamp as its canonical rendering. -/
def pyStrTimestamp : Option String → String
  | Option.none => "None"
  | some s => s

/-- One extracted record (the email_data dict of src/app.py
lines 102-109).  `from` and `to` are Lean keywords, hence the field names
`from_` and `to_`. -/
structure Record where
  from_ : String
  to_ : String
  subject : String
  body : String
  date : String
  attachments : List String
deriving DecidableEq

/-- Resolution of one attachment slot (src/app.py lines 89-97): the
whole slot body is wrapped in a try/except, so a raise from
get_attachment, get_long_filename or get_short_filename skips the slot.
The long filename wins when truthy, else the short filename when
truthy, else the slot contributes nothing. -/
def resolveAttachment : Except Unit RawAttachment → Option String
  | Except.error _ => Option.none
  | Except.ok attachment =>
    match attachment.longFilename with
    | Except.error _ => Option.none
    | Except.ok lf =>
      if pyTruthy lf then some (decode_if_bytes lf)
      else
        match attachment.shortFilename with
        | Except.error _ => Option.none
        | Except.ok sf =>
          if pyTruthy sf then some (decode_if_bytes sf) else Option.none

/-- `message.get_attachment(j)` for j below the reported count
(src/app.py line 90): indexing past the available attachments raises. -/
def getAttachmentSlot (atts : List (Except Unit RawAttachment)) (j : Nat) : Except Unit RawAttachment :=
  (atts.get? j).getD (Except.error ())

/-- The attachment loop `for j in range(attachment_count)` (src/app.py
lines 88-97), walking the first `n` slots; an out-of-range index is a
per-slot raise, caught by the inner except, and the loop continues. -/
def collectAttachmentsLoop : List (Except Unit RawAttachment) → Nat → List String
  | _, 0 => []
  | [], Nat.succ k => collectAttachmentsLoop [] k
  | slot :: rest, Nat.succ k => (resolveAttachment slot).toList ++ collectAttachmentsLoop rest k

/-- Attachment collection (src/app.py lines 85-100): when the
attachment count itself cannot be read, the outer except leaves the
list empty; otherwise the slots are resolved in index order. -/
def collectAttachments (message : RawMessage) : List String :=
  match message.attachmentCount with
  | Except.error _ => []
  | Except.ok n => collectAttachmentsLoop message.attachments n

/-- The record builder: the field reads of one message (src/app.py
lines 72-109), in source order.  Any raise among them (modelled by the
Except bind) aborts construction; the attachment part (lines 85-100)
never raises, as both of its try/except blocks swallow all failures. -/
def buildRecord (message : RawMessage) : Except Unit Record := do
  let sender := decode_if_bytes (← message.senderName)
  let subject := decode_if_bytes (← message.subject)
  let body := decode_if_bytes (← message.plainTextBody)
  let delivery_time ← message.deliveryTime
  let headers := decode_if_bytes (← message.transportHeaders)
  let recipient := extractTo headers
  let attachments := collectAttachments message
  pure { from_ := sender, to_ := recipient, subject := subject, body := body,
         date := pyStrTimestamp delivery_time, attachments := attachments }

/-- The literal separator of src/app.py line 118. -/
def commaSpace : String := ", "

/-- The csv row written for a record (src/app.py lines 112-119).  The
csv module stringifies the raw delivery_time cell with `str`, which is
exactly the record's date field (line 107); the attachments cell is the
names joined with the literal separator. -/
def csvRowOf (r : Record) : List String :=
  [r.from_, r.to_, r.subject, r.body, r.date, String.intercalate commaSpace r.attachments]

/-- The csv writer over the in-memory StringIO buffer (src/app.py
lines 178-179): the rows written so far, plus a failure plan saying
which writerow calls (counted from 0, the header row being call 0)
raise, modelling that a sink write may fail (§4.5 of the spec). -/
structure CsvWriter where
  rows : List (List String)
  failAt : List Nat
  calls : Nat
deriving DecidableEq

/-- One `csv_writer.writerow(...)` call: if the call raises per the
failure plan, no row is written; otherwise the row is appended.  The
call counter advances either way. -/
def writerow (w : CsvWriter) (row : List String) : CsvWriter × Except Unit Unit :=
  if w.calls ∈ w.failAt then ({ w with calls := w.calls + 1 }, Except.error ())
  else ({ w with rows := w.rows ++ [row], calls := w.calls + 1 }, Except.ok ())

/-- The mutable state threaded through process_pst_folder: the `emails`
list and the csv writer (src/app.py line 62 parameters). -/
structure St where
  emails : List Record
  csv : CsvWriter
deriving DecidableEq

/-- One iteration of the message loop with its try/except (src/app.py
lines 69-123): a raise from get_sub_message or from the field reads
leaves the state untouched; after a successful build the record is
appended to `emails` (line 111) and then the csv row is written
(line 112) — when that writerow raises, the appended record stays,
because the Python list mutation has already happened, and the except
at line 121 merely continues. -/
def processMessage (slot : Except Unit RawMessage) (st : St) : St :=
  match slot with
  | Except.error _ => st
  | Except.ok message =>
    match buildRecord message with
    | Except.error _ => st
    | Except.ok email_data =>
      let st1 : St := { st with emails := st.emails ++ [email_data] }
      match writerow st1.csv (csvRowOf email_data) with
      | (w, Except.error _) => { st1 with csv := w }
      | (w, Except.ok _) => { st1 with csv := w }

/-- The record a message slot contributes, if any: none when
get_sub_message or the build raises. -/
def msgRecordOf (slot : Except Unit RawMessage) : Option Record :=
  match slot with
  | Except.error _ => Option.none
  | Except.ok message => (buildRecord message).toOption

/-- The message loop `for i in range(message_count)` (src/app.py
line 68), walking the first `count` slots; when the index runs past the
available messages, get_sub_message raises, the per-message except
catches it, and the loop continues with the next index. -/
def processMsgsLoop : List (Except Unit RawMessage) → Nat → St → St
  | _, 0, st => st
  | [], Nat.succ k, st => processMsgsLoop [] k st
  | slot :: rest, Nat.succ k, st => processMsgsLoop rest k (processMessage slot st)

mutual
/-- A pypff folder node (external, read-only): the two counts may
raise; the message slots and subfolder slots model get_sub_message(i)
and get_sub_folder(i).  The nesting is encoded with the mutual types
FolderList and FolderSlot so that the traversal is structurally
recursive. -/
inductive FolderNode : Type where
  | mk (numMsgs : Except Unit Nat) (msgs : List (Except Unit RawMessage))
       (numSubs : Except Unit Nat) (subs : FolderList) : FolderNode
inductive FolderList : Type where
  | nil : FolderList
  | cons (slot : FolderSlot) (rest : FolderList) : FolderList
inductive FolderSlot : Type where
  | ok (f : FolderNode) : FolderSlot
  | err : FolderSlot
end

mutual
/-- Shallow embedding of process_pst_folder (src/app.py lines 62-130)
together with its subfolder loop (lines 125-127).  The whole body is
wrapped in one try/except (lines 64 and 129) that logs and returns, so:
a raise of get_number_of_sub_messages skips the folder; a raise of
get_number_of_sub_folders keeps the already-processed messages and
skips the subfolders; and a raise of get_sub_folder(i) — including an
index past the available subfolders — aborts the remaining subfolder
iterations of this folder, keeping everything already collected.  A
failure inside a recursive call is caught by that call's own except and
never propagates to the parent. -/
def process_pst_folder : FolderNode → St → St
  | FolderNode.mk numMsgs msgs numSubs subs, st =>
    match numMsgs with
    | Except.error _ => st
    | Except.ok message_count =>
      let st1 := processMsgsLoop msgs message_count st
      match numSubs with
      | Except.error _ => st1
      | Except.ok sub_count => processSubsLoop subs sub_count st1
def processSubsLoop : FolderList → Nat → St → St
  | _, 0, st => st
  | FolderList.nil, Nat.succ _, st => st
  | FolderList.cons FolderSlot.err _, Nat.succ _, st => st
  | FolderList.cons (FolderSlot.ok sub) rest, Nat.succ k, st =>
    processSubsLoop rest k (process_pst_folder sub st)
end

/-- The fixed csv header row (src/app.py line 180). -/
def headerRow : List String :=
  ["From", "To", "Subject", "Body", "Date", "Attachments"]

/-- The outcome of the analyze-pst route, as far as the extraction core
is concerned: success with the emails list and the csv rows (the json
payload and csv artifact of lines 189-202), the empty-result error
`jsonify({'error': 'No emails found in PST file'}), 400` of
lines 186-187, or the catch-all `500` of lines 207-210. -/
inductive RouteResult : Type where
  | success (emails : List Record) (rows : List (List String)) : RouteResult
  | emptyError : RouteResult
  | serverError : RouteResult
deriving DecidableEq

/-- The extraction core of the analyze-pst route (src/app.py
lines 173-205), starting after the upload has been saved: opening the
store may raise (adapter-open failure → the except of line 207, a 500);
then the header row is written, the tree is walked, and a run with zero
extracted emails is reported as the distinct empty-result error.  The
json payload of a successful run contains only strings and string
lists, so the serialization test of line 201 cannot fail for it. -/
def analyze_pst (openResult : Except Unit FolderNode) (failAt : List Nat) : RouteResult :=
  match openResult with
  | Except.error _ => RouteResult.serverError
  | Except.ok root =>
    let w0 : CsvWriter := { rows := [], failAt := failAt, calls := 0 }
    match writerow w0 headerRow with
    | (_, Except.error _) => RouteResult.serverError
    | (w1, Except.ok _) =>
      let st := process_pst_folder root { emails := [], csv := w1 }
      if st.emails.length = 0 then RouteResult.emptyError
      else RouteResult.success st.emails st.csv.rows

/-- A slot that contributes no record (a raise before the append at
src/app.py line 111) leaves the state untouched. -/
theorem processMessage_none (slot : Except Unit RawMessage) (st : St)
    (h : msgRecordOf slot = Option.none) : processMessage slot st = st := by
  cases slot with
  | error e => rfl
  | ok message =>
    simp only [msgRecordOf, Except.toOption] at h
    cases hb : buildRecord message with
    | error e => simp [processMessage, hb]
    | ok r => rw [hb] at h; simp at h

/-- A slot whose build succeeds appends its record to `emails` and
makes one writerow call, whose outcome only affects the csv facet. -/
theorem processMessage_some (slot : Except Unit RawMessage) (st : St) (r : Record)
    (h : msgRecordOf slot = some r) :
    processMessage slot st =
      { emails := st.emails ++ [r],
        csv := (writerow st.csv (csvRowOf r)).1 } := by
  cases slot with
  | error e => simp [msgRecordOf] at h
  | ok message =>
    simp only [msgRecordOf, Except.toOption] at h
    cases hb : buildRecord message with
    | error e => rw [hb] at h; simp at h
    | ok r2 =>
      rw [hb] at h
      simp only [Option.some.injEq] at h
      subst h
      simp only [processMessage, hb]
      cases hw : writerow st.csv (csvRowOf r2) with
      | mk w e => cases e <;> simp [hw]

/-- The `emails` facet after one message iteration. -/
theorem processMessage_emails (slot : Except Unit RawMessage) (st : St) :
    (processMessage slot st).emails = st.emails ++ (msgRecordOf slot).toList := by
  cases h : msgRecordOf slot with
  | none => rw [processMessage_none slot st h]; simp
  | some r => rw [processMessage_some slot st r h]; rfl

/-- The records contributed by the message loop: the loop's state
effect on `emails`, as a pure list. -/
def emailsOfMsgsLoop : List (Except Unit RawMessage) → Nat → List Record
  | _, 0 => []
  | [], Nat.succ k => emailsOfMsgsLoop [] k
  | slot :: rest, Nat.succ k => (msgRecordOf slot).toList ++ emailsOfMsgsLoop rest k

/-- The message loop appends exactly its contributed records. -/
theorem processMsgsLoop_emails :
    ∀ (msgs : List (Except Unit RawMessage)) (n : Nat) (st : St),
    (processMsgsLoop msgs n st).emails = st.emails ++ emailsOfMsgsLoop msgs n := by
  intro msgs n
  induction n generalizing msgs with
  | zero => intro st; cases msgs <;> simp [processMsgsLoop, emailsOfMsgsLoop]
  | succ k ih =>
    intro st
    cases msgs with
    | nil => simp [processMsgsLoop, emailsOfMsgsLoop, ih]
    | cons slot rest =>
      simp [processMsgsLoop, emailsOfMsgsLoop, ih, processMessage_emails]

/-- With an accurate message count, the loop is the fold of the
per-message step over the slot list. -/
theorem processMsgsLoop_eq_foldl :
    ∀ (msgs : List (Except Unit RawMessage)) (st : St),
    processMsgsLoop msgs msgs.length st = msgs.foldl (fun s slot => processMessage slot s) st := by
  intro msgs
  induction msgs with
  | nil => intro st; rfl
  | cons slot rest ih => intro st; simp [processMsgsLoop, ih]

/-- With an accurate count, the contributed records are the filterMap
of the per-slot record over the slot list. -/
theorem emailsOfMsgsLoop_eq_filterMap :
    ∀ (msgs : List (Except Unit RawMessage)),
    emailsOfMsgsLoop msgs msgs.length = msgs.filterMap msgRecordOf := by
  intro msgs
  induction msgs with
  | nil => rfl
  | cons slot rest ih =>
    cases h : msgRecordOf slot <;>
      simp [emailsOfMsgsLoop, List.filterMap_cons, h, ih]

mutual
/-- The records contributed by a whole folder walk, as a pure list:
the mirror of process_pst_folder on the `emails` facet. -/
def emailsOf : FolderNode → List Record
  | FolderNode.mk numMsgs msgs numSubs subs =>
    match numMsgs with
    | Except.error _ => []
    | Except.ok message_count =>
      emailsOfMsgsLoop msgs message_count ++
        (match numSubs with
         | Except.error _ => []
         | Except.ok sub_count => emailsOfSubs subs sub_count)
/-- The records contributed by the subfolder loop. -/
def emailsOfSubs : FolderList → Nat → List Record
  | _, 0 => []
  | FolderList.nil, Nat.succ _ => []
  | FolderList.cons FolderSlot.err _, Nat.succ _ => []
  | FolderList.cons (FolderSlot.ok sub) rest, Nat.succ k =>
    emailsOf sub ++ emailsOfSubs rest k
end

mutual
/-- A folder walk appends exactly its contributed records to `emails`,
whatever the incoming state. -/
theorem process_pst_folder_emails (f : FolderNode) (st : St) :
    (process_pst_folder f st).emails = st.emails ++ emailsOf f := by
  cases f with
  | mk numMsgs msgs numSubs subs =>
    cases numMsgs with
    | error e => simp [process_pst_folder, emailsOf]
    | ok message_count =>
      cases numSubs with
      | error e =>
        simp [process_pst_folder, emailsOf, processMsgsLoop_emails]
      | ok sub_count =>
        simp [process_pst_folder, emailsOf,
          processSubsLoop_emails subs sub_count (processMsgsLoop msgs message_count st),
          processMsgsLoop_emails]
/-- The subfolder loop appends exactly its contributed records. -/
theorem processSubsLoop_emails (subs : FolderList) (n : Nat) (st : St) :
    (processSubsLoop subs n st).emails = st.emails ++ emailsOfSubs subs n := by
  cases n with
  | zero => cases subs <;> simp [processSubsLoop, emailsOfSubs]
  | succ k =>
    cases subs with
    | nil => simp [processSubsLoop, emailsOfSubs]
    | cons slot rest =>
      cases slot with
      | err => simp [processSubsLoop, emailsOfSubs]
      | ok sub =>
        simp [processSubsLoop, emailsOfSubs,
          processSubsLoop_emails rest k (process_pst_folder sub st),
          process_pst_folder_emails sub st]
end

/-- With an empty failure plan, one message iteration appends the
record to `emails` and the matching row to the csv buffer, in
lock-step. -/
theorem processMessage_nofail (slot : Except Unit RawMessage) (st : St)
    (h : st.csv.failAt = []) :
    processMessage slot st =
      { emails := st.emails ++ (msgRecordOf slot).toList,
        csv := { rows := st.csv.rows ++ ((msgRecordOf slot).toList.map csvRowOf),
                 failAt := [], calls := st.csv.calls + (msgRecordOf slot).toList.length } } := by
  cases hm : msgRecordOf slot with
  | none =>
    rw [processMessage_none slot st hm]
    cases st with
    | mk emails csv => cases csv with
      | mk rows failAt calls => simp_all
  | some r =>
    rw [processMessage_some slot st r hm]
    simp [writerow, h]

/-- With an empty failure plan, the message loop keeps the two sinks in
lock-step. -/
theorem processMsgsLoop_nofail :
    ∀ (msgs : List (Except Unit RawMessage)) (n : Nat) (st : St), st.csv.failAt = [] →
    processMsgsLoop msgs n st =
      { emails := st.emails ++ emailsOfMsgsLoop msgs n,
        csv := { rows := st.csv.rows ++ (emailsOfMsgsLoop msgs n).map csvRowOf,
                 failAt := [], calls := st.csv.calls + (emailsOfMsgsLoop msgs n).length } } := by
  intro msgs n
  induction n generalizing msgs with
  | zero =>
    intro st h
    cases st with
    | mk emails csv => cases csv with
      | mk rows failAt calls => cases msgs <;> simp_all [processMsgsLoop, emailsOfMsgsLoop]
  | succ k ih =>
    intro st h
    cases msgs with
    | nil =>
      rw [show processMsgsLoop [] (Nat.succ k) st = processMsgsLoop [] k st from rfl]
      rw [ih [] st h]
      simp [emailsOfMsgsLoop]
    | cons slot rest =>
      rw [show processMsgsLoop (slot :: rest) (Nat.succ k) st
            = processMsgsLoop rest k (processMessage slot st) from rfl]
      rw [processMessage_nofail slot st h]
      rw [ih rest _ (by simp)]
      simp [emailsOfMsgsLoop, Nat.add_assoc]

mutual
/-- With an empty failure plan, a folder walk keeps the two sinks in
lock-step: one csv row per appended record, in the same order. -/
theorem process_pst_folder_nofail (f : FolderNode) (st : St) (h : st.csv.failAt = []) :
    process_pst_folder f st =
      { emails := st.emails ++ emailsOf f,
        csv := { rows := st.csv.rows ++ (emailsOf f).map csvRowOf,
                 failAt := [], calls := st.csv.calls + (emailsOf f).length } } := by
  cases f with
  | mk numMsgs msgs numSubs subs =>
    cases numMsgs with
    | error e =>
      rw [show process_pst_folder (FolderNode.mk (Except.error e) msgs numSubs subs) st = st from rfl]
      cases st with
      | mk emails csv => cases csv with
        | mk rows failAt calls => simp_all [emailsOf]
    | ok message_count =>
      cases numSubs with
      | error e =>
        rw [show process_pst_folder (FolderNode.mk (Except.ok message_count) msgs (Except.error e) subs) st
              = processMsgsLoop msgs message_count st from rfl]
        rw [processMsgsLoop_nofail msgs message_count st h]
        simp [emailsOf]
      | ok sub_count =>
        rw [show process_pst_folder (FolderNode.mk (Except.ok message_count) msgs (Except.ok sub_count) subs) st
              = processSubsLoop subs sub_count (processMsgsLoop msgs message_count st) from rfl]
        rw [processMsgsLoop_nofail msgs message_count st h]
        rw [processSubsLoop_nofail subs sub_count _ (by simp)]
        simp [emailsOf, Nat.add_assoc]
/-- With an empty failure plan, the subfolder loop keeps the two sinks
in lock-step. -/
theorem processSubsLoop_nofail (subs : FolderList) (n : Nat) (st : St) (h : st.csv.failAt = []) :
    processSubsLoop subs n st =
      { emails := st.emails ++ emailsOfSubs subs n,
        csv := { rows := st.csv.rows ++ (emailsOfSubs subs n).map csvRowOf,
                 failAt := [], calls := st.csv.calls + (emailsOfSubs subs n).length } } := by
  cases n with
  | zero =>
    cases st with
    | mk emails csv => cases csv with
      | mk rows failAt calls => cases subs <;> simp_all [processSubsLoop, emailsOfSubs]
  | succ k =>
    cases subs with
    | nil =>
      cases st with
      | mk emails csv => cases csv with
        | mk rows failAt calls => simp_all [processSubsLoop, emailsOfSubs]
    | cons slot rest =>
      cases slot with
      | err =>
        cases st with
        | mk emails csv => cases csv with
          | mk rows failAt calls => simp_all [processSubsLoop, emailsOfSubs]
      | ok sub =>
        rw [show processSubsLoop (FolderList.cons (FolderSlot.ok sub) rest) (Nat.succ k) st
              = processSubsLoop rest k (process_pst_folder sub st) from rfl]
        rw [process_pst_folder_nofail sub st h]
        rw [processSubsLoop_nofail rest k _ (by simp)]
        simp [emailsOfSubs, Nat.add_assoc]
end

/-- The number of subfolder slots of a FolderList. -/
def lengthFL : FolderList → Nat
  | FolderList.nil => 0
  | FolderList.cons _ rest => lengthFL rest + 1

mutual
/-- Spec-side traversal order, following the spec's words (§4.4, §8
Ordering): for the current folder, every message in index order
contributes its record (if it yields one), then every subfolder in
index order is traversed recursively with the same algorithm. -/
def dfsSpec : FolderNode → List Record
  | FolderNode.mk _ msgs _ subs => msgs.filterMap msgRecordOf ++ dfsSpecSubs subs
/-- Spec-side traversal of the subfolder list in index order. -/
def dfsSpecSubs : FolderList → List Record
  | FolderList.nil => []
  | FolderList.cons FolderSlot.err rest => dfsSpecSubs rest
  | FolderList.cons (FolderSlot.ok sub) rest => dfsSpec sub ++ dfsSpecSubs rest
end

mutual
/-- A readable folder tree: both counts are returned without raising
and are accurate, and every subfolder handle is retrievable, at every
level.  (Message slots may still raise: that is a message-level
failure, isolated per message.) -/
def wfFolder : FolderNode → Bool
  | FolderNode.mk numMsgs msgs numSubs subs =>
    (match numMsgs with
     | Except.ok n => n == msgs.length
     | Except.error _ => false) &&
    (match numSubs with
     | Except.ok n => n == lengthFL subs
     | Except.error _ => false) &&
    wfSubs subs
/-- Readability of every subfolder slot of a list. -/
def wfSubs : FolderList → Bool
  | FolderList.nil => true
  | FolderList.cons FolderSlot.err _ => false
  | FolderList.cons (FolderSlot.ok sub) rest => wfFolder sub && wfSubs rest
end

mutual
/-- On a readable tree the walk's contribution is exactly the
spec-side depth-first, messages-before-subfolders order. -/
theorem emailsOf_eq_dfsSpec (f : FolderNode) (h : wfFolder f = true) :
    emailsOf f = dfsSpec f := by
  cases f with
  | mk numMsgs msgs numSubs subs =>
    cases numMsgs with
    | error e => simp [wfFolder] at h
    | ok mc =>
      cases numSubs with
      | error e => simp [wfFolder] at h
      | ok sc =>
        simp only [wfFolder, Bool.and_eq_true, beq_iff_eq] at h
        obtain ⟨⟨hmc, hsc⟩, hsubs⟩ := h
        subst hmc; subst hsc
        rw [show emailsOf (FolderNode.mk (Except.ok msgs.length) msgs (Except.ok (lengthFL subs)) subs)
              = emailsOfMsgsLoop msgs msgs.length ++ emailsOfSubs subs (lengthFL subs) from rfl]
        rw [show dfsSpec (FolderNode.mk (Except.ok msgs.length) msgs (Except.ok (lengthFL subs)) subs)
              = msgs.filterMap msgRecordOf ++ dfsSpecSubs subs from rfl]
        rw [emailsOfMsgsLoop_eq_filterMap, emailsOfSubs_eq_dfsSpecSubs subs hsubs]
/-- On a readable subfolder list the loop's contribution is exactly
the spec-side order of the subfolder traversals. -/
theorem emailsOfSubs_eq_dfsSpecSubs (subs : FolderList) (h : wfSubs subs = true) :
    emailsOfSubs subs (lengthFL subs) = dfsSpecSubs subs := by
  cases subs with
  | nil => rfl
  | cons slot rest =>
    cases slot with
    | err => simp [wfSubs] at h
    | ok sub =>
      rw [show wfSubs (FolderList.cons (FolderSlot.ok sub) rest)
            = (wfFolder sub && wfSubs rest) from rfl] at h
      simp only [Bool.and_eq_true] at h
      rw [show lengthFL (FolderList.cons (FolderSlot.ok sub) rest) = lengthFL rest + 1 from rfl]
      rw [show emailsOfSubs (FolderList.cons (FolderSlot.ok sub) rest) (lengthFL rest + 1)
            = emailsOf sub ++ emailsOfSubs rest (lengthFL rest) from rfl]
      rw [show dfsSpecSubs (FolderList.cons (FolderSlot.ok sub) rest)
            = dfsSpec sub ++ dfsSpecSubs rest from rfl]
      rw [emailsOf_eq_dfsSpec sub h.1, emailsOfSubs_eq_dfsSpecSubs rest h.2]
end

/-- find? returns the first element satisfying the predicate when the
elements before it all fail it. -/
theorem find?_first {α : Type} (p : α → Bool) :
    ∀ (pre : List α) (line : α) (post : List α),
    (∀ l ∈ pre, p l = false) → p line = true →
    (pre ++ line :: post).find? p = some line := by
  intro pre
  induction pre with
  | nil => intro line post _ hl; simp [List.find?_cons, hl]
  | cons a rest ih =>
    intro line post hpre hl
    have ha := hpre a (List.mem_cons_self a rest)
    simp only [List.cons_append, List.find?_cons, ha]
    exact ih line post (fun l hm => hpre l (List.mem_cons_of_mem a hm)) hl

/-- filterMap keeps the length when every element produces a value. -/
theorem length_filterMap_isSome {α β : Type} (f : α → Option β) :
    ∀ l : List α, (∀ x ∈ l, (f x).isSome = true) → (l.filterMap f).length = l.length := by
  intro l
  induction l with
  | nil => intro _; rfl
  | cons a rest ih =>
    intro h
    have ha := h a (List.mem_cons_self a rest)
    cases hfa : f a with
    | none => rw [hfa] at ha; simp at ha
    | some b =>
      simp [List.filterMap_cons, hfa, ih (fun x hm => h x (List.mem_cons_of_mem a hm))]

/-- The traversal state right after the header row has been written
(src/app.py line 180), with the given writerow failure plan. -/
def stInit (failAt : List Nat) : St :=
  { emails := [], csv := { rows := [headerRow], failAt := failAt, calls := 1 } }

/-- A concrete all-readable message for witnesses, with no attachments. -/
def mkMsg (sender subj bod hdr : String) (dt : Option String) : RawMessage :=
  { senderName := Except.ok (PyVal.str sender), subject := Except.ok (PyVal.str subj),
    plainTextBody := Except.ok (PyVal.str bod), deliveryTime := Except.ok dt,
    transportHeaders := Except.ok (PyVal.str hdr), attachmentCount := Except.ok 0,
    attachments := [] }

/-- A concrete message whose build raises (get_sender_name fails). -/
def mkBadMsg : RawMessage :=
  { senderName := Except.error (), subject := Except.ok (PyVal.str ""),
    plainTextBody := Except.ok (PyVal.str ""), deliveryTime := Except.ok Option.none,
    transportHeaders := Except.ok (PyVal.str ""), attachmentCount := Except.ok 0,
    attachments := [] }

/-- C7: for every header blob, recipient extraction returns the
whitespace-trimmed remainder after the 3-character prefix of the first
line whose prefix matches `to:` case-insensitively, and the empty
string when no such line exists (so later `to:` lines are ignored); in
particular the blob `From: a\nTo:  b@example.com \nCc: c\n` yields
`b@example.com`. -/
theorem C7_recipient :
    (∀ (headers : String) (pre : List String) (line : String) (post : List String),
      pySplitNl headers = pre ++ line :: post →
      (∀ l ∈ pre, isToLine l = false) → isToLine line = true →
      extractTo headers = pyStrip (pyDrop3 line))
    ∧ (∀ headers : String, (∀ l ∈ pySplitNl headers, isToLine l = false) →
      extractTo headers = "")
    ∧ extractTo ("From: a\nTo:  b@example.com \nCc: c\n") = "b@example.com" := by
  refine ⟨?_, ?_, by decide⟩
  · intro headers pre line post hsplit hpre hline
    by_cases he : headers == ""
    · have he2 : headers = "" := by simpa using he
      subst he2
      have : pySplitNl "" = [""] := by decide
      rw [this] at hsplit
      cases pre with
      | nil =>
        simp only [List.nil_append, List.cons.injEq] at hsplit
        obtain ⟨hl0, -⟩ := hsplit
        subst hl0
        have : isToLine "" = false := by decide
        rw [this] at hline
        exact absurd hline (by simp)
      | cons a rest =>
        simp only [List.cons_append, List.cons.injEq] at hsplit
        exact absurd hsplit.2 (by simp)
    · simp only [extractTo, he, Bool.false_eq_true, if_false]
      rw [hsplit, find?_first isToLine pre line post hpre hline]
  · intro headers hnone
    by_cases he : headers == ""
    · simp [extractTo, he]
    · simp only [extractTo, he, Bool.false_eq_true, if_false]
      rw [List.find?_eq_none.mpr (fun l hm => by simp [hnone l hm])]

/-- Witness for C7: a blob with two `to:` lines yields the first's
trimmed remainder, and a blob with no `to:` line yields the empty
string. -/
theorem C7_recipient_witness :
    extractTo ("To: a\nTo: b") = pyStrip (pyDrop3 ("To: a"))
    ∧ extractTo ("From: x\nCc: y") = "" :=
  ⟨C7_recipient.1 ("To: a\nTo: b") [] ("To: a") [("To: b")] (by decide) (by decide) (by decide),
   C7_recipient.2.1 ("From: x\nCc: y") (by decide)⟩

/-- C8: an attachment slot resolves to the long filename when truthy,
else the short filename when truthy, else it contributes no entry; a
slot that raises (or a skipped slot) is dropped from the sequence
without affecting the other slots, and the attachment part never makes
the message's build fail: a successful build carries exactly the
collected attachment names. -/
theorem C8_attachments :
    (∀ (att : RawAttachment) (lf : PyVal), att.longFilename = Except.ok lf → pyTruthy lf = true →
      resolveAttachment (Except.ok att) = some (decode_if_bytes lf))
    ∧ (∀ (att : RawAttachment) (lf sf : PyVal), att.longFilename = Except.ok lf →
      pyTruthy lf = false → att.shortFilename = Except.ok sf → pyTruthy sf = true →
      resolveAttachment (Except.ok att) = some (decode_if_bytes sf))
    ∧ (∀ (att : RawAttachment) (lf sf : PyVal), att.longFilename = Except.ok lf →
      pyTruthy lf = false → att.shortFilename = Except.ok sf → pyTruthy sf = false →
      resolveAttachment (Except.ok att) = Option.none)
    ∧ (∀ att : RawAttachment, att.longFilename = Except.error () →
      resolveAttachment (Except.ok att) = Option.none)
    ∧ (∀ (slot : Except Unit RawAttachment), resolveAttachment slot = Option.none →
      ∀ (pre post : List (Except Unit RawAttachment)) (n : Nat),
      collectAttachmentsLoop (pre ++ slot :: post) (pre.length + 1 + n)
        = collectAttachmentsLoop (pre ++ post) (pre.length + n))
    ∧ (∀ atts : List (Except Unit RawAttachment),
      collectAttachmentsLoop atts atts.length = atts.filterMap resolveAttachment)
    ∧ (∀ (m : RawMessage) (r : Record), buildRecord m = Except.ok r →
      r.attachments = collectAttachments m) := by
  refine ⟨?_, ?_, ?_, ?_, ?_, ?_, ?_⟩
  · intro att lf hl ht
    simp [resolveAttachment, hl, ht]
  · intro att lf sf hl htl hs hts
    simp [resolveAttachment, hl, htl, hs, hts]
  · intro att lf sf hl htl hs hts
    simp [resolveAttachment, hl, htl, hs, hts]
  · intro att hl
    simp [resolveAttachment, hl]
  · intro slot hnone pre
    induction pre with
    | nil =>
      intro post n
      have e1 : ([] : List (Except Unit RawAttachment)).length + 1 + n = Nat.succ n := by
        simp only [List.length_nil]; omega
      rw [e1]
      simp [collectAttachmentsLoop, hnone]
    | cons a rest ih =>
      intro post n
      have e1 : (a :: rest).length + 1 + n = Nat.succ (rest.length + 1 + n) := by
        simp only [List.length_cons]; omega
      have e2 : (a :: rest).length + n = Nat.succ (rest.length + n) := by
        simp only [List.length_cons]; omega
      rw [e1, e2]
      simp [collectAttachmentsLoop, ih]
  · intro atts
    induction atts with
    | nil => rfl
    | cons a rest ih =>
      cases h : resolveAttachment a <;>
        simp [collectAttachmentsLoop, List.filterMap_cons, h, ih]
  · intro m r hb
    cases hsn : m.senderName with
    | error e => simp [buildRecord, hsn, Bind.bind, Except.bind] at hb
    | ok sv =>
      cases hsj : m.subject with
      | error e => simp [buildRecord, hsn, hsj, Bind.bind, Except.bind] at hb
      | ok jv =>
        cases hbd : m.plainTextBody with
        | error e => simp [buildRecord, hsn, hsj, hbd, Bind.bind, Except.bind] at hb
        | ok bv =>
          cases hdt : m.deliveryTime with
          | error e => simp [buildRecord, hsn, hsj, hbd, hdt, Bind.bind, Except.bind] at hb
          | ok dt =>
            cases hth : m.transportHeaders with
            | error e =>
              simp [buildRecord, hsn, hsj, hbd, hdt, hth, Bind.bind, Except.bind] at hb
            | ok tv =>
              simp only [buildRecord, hsn, hsj, hbd, hdt, hth, Bind.bind, Except.bind,
                pure, Except.pure, Except.ok.injEq] at hb
              subst hb
              rfl

/-- A concrete attachment slot with only a short filename. -/
def attShortOnly : RawAttachment :=
  { longFilename := Except.ok PyVal.none, shortFilename := Except.ok (PyVal.str "s.txt") }

/-- A concrete attachment slot with a long filename. -/
def attLongA : RawAttachment :=
  { longFilename := Except.ok (PyVal.str "a.txt"), shortFilename := Except.ok PyVal.none }

/-- A concrete attachment slot with a long filename. -/
def attLongB : RawAttachment :=
  { longFilename := Except.ok (PyVal.str "b.txt"), shortFilename := Except.ok PyVal.none }

/-- A concrete attachment slot with neither filename. -/
def attNameless : RawAttachment :=
  { longFilename := Except.ok PyVal.none, shortFilename := Except.ok PyVal.none }

/-- Witness for C8: a slot with only a short filename yields that name;
a slot with neither filename is dropped and the collected sequence over
a three-slot list is the two-slot one. -/
theorem C8_attachments_witness :
    resolveAttachment (Except.ok attShortOnly) = some (decode_if_bytes (PyVal.str "s.txt"))
    ∧ collectAttachmentsLoop [Except.ok attLongA, Except.ok attNameless, Except.ok attLongB] (1 + 1 + 1)
      = collectAttachmentsLoop [Except.ok attLongA, Except.ok attLongB] (1 + 1) :=
  ⟨C8_attachments.2.1 attShortOnly PyVal.none (PyVal.str "s.txt") rfl (by decide) rfl (by decide),
   C8_attachments.2.2.2.2.1 (Except.ok attNameless) (by decide)
     [Except.ok attLongA] [Except.ok attLongB] 1⟩

/-- C10: a successfully built record's date field is the string
rendering of the delivery timestamp, hence always a string; when the
timestamp is absent (Python None) it is the four-character string
"None", not the empty string. -/
theorem C10_date : ∀ (m : RawMessage) (r : Record), buildRecord m = Except.ok r →
    (∃ dt, m.deliveryTime = Except.ok dt ∧ r.date = pyStrTimestamp dt)
    ∧ (m.deliveryTime = Except.ok Option.none →
      r.date = "None" ∧ r.date ≠ "" ∧ r.date.length = 4) := by
  intro m r hb
  cases hsn : m.senderName with
  | error e => simp [buildRecord, hsn, Bind.bind, Except.bind] at hb
  | ok sv =>
    cases hsj : m.subject with
    | error e => simp [buildRecord, hsn, hsj, Bind.bind, Except.bind] at hb
    | ok jv =>
      cases hbd : m.plainTextBody with
      | error e => simp [buildRecord, hsn, hsj, hbd, Bind.bind, Except.bind] at hb
      | ok bv =>
        cases hdt : m.deliveryTime with
        | error e => simp [buildRecord, hsn, hsj, hbd, hdt, Bind.bind, Except.bind] at hb
        | ok dt =>
          cases hth : m.transportHeaders with
          | error e =>
            simp [buildRecord, hsn, hsj, hbd, hdt, hth, Bind.bind, Except.bind] at hb
          | ok tv =>
            simp only [buildRecord, hsn, hsj, hbd, hdt, hth, Bind.bind, Except.bind,
              pure, Except.pure, Except.ok.injEq] at hb
            subst hb
            refine ⟨⟨dt, rfl, rfl⟩, ?_⟩
            intro hnone
            simp only [Except.ok.injEq] at hnone
            subst hnone
            refine ⟨rfl, ?_, ?_⟩
            · show pyStrTimestamp Option.none ≠ ""
              decide
            · show (pyStrTimestamp Option.none).length = 4
              decide

/-- Witness for C10: a concrete message with an absent delivery
timestamp builds a record whose date field is the string "None". -/
theorem C10_date_witness :
    (mkMsg ("a") ("s") ("b") ("") Option.none).deliveryTime = Except.ok Option.none
    ∧ { from_ := "a", to_ := "", subject := "s", body := "b", date := "None",
        attachments := ([] : List String) : Record }.date = "None" :=
  ⟨rfl, ((C10_date (mkMsg ("a") ("s") ("b") ("") Option.none)
      { from_ := "a", to_ := "", subject := "s", body := "b", date := "None", attachments := [] }
      (by decide)).2 rfl).1⟩

/-- A concrete readable folder with one readable message. -/
def goodLeafFolder : FolderNode :=
  FolderNode.mk (Except.ok 1) [Except.ok (mkMsg ("a") ("s") ("b") ("") (some ("d")))]
    (Except.ok 0) FolderList.nil

/-- The record goodLeafFolder's message builds. -/
def goodLeafRecord : Record :=
  { from_ := "a", to_ := "", subject := "s", body := "b", date := "d", attachments := [] }

/-- A concrete folder whose first subfolder handle raises on retrieval
and whose second subfolder is goodLeafFolder. -/
def rootBadFirstSub : FolderNode :=
  FolderNode.mk (Except.ok 0) [] (Except.ok 2)
    (FolderList.cons FolderSlot.err (FolderList.cons (FolderSlot.ok goodLeafFolder) FolderList.nil))

/-- Counterexample to C5: in rootBadFirstSub, retrieving subfolder 0
raises, and the source catches that raise at the parent's except
(src/app.py line 129), which abandons the whole subfolder loop — so the
sibling subfolder 1, which on its own contributes a record, is NOT
processed: the claim that every sibling folder is still processed
normally is false. -/
theorem C5_counterexample :
    (process_pst_folder rootBadFirstSub (stInit [])).emails = []
    ∧ (process_pst_folder goodLeafFolder (stInit [])).emails = [goodLeafRecord] := by
  decide

/-- C5 amended: a folder whose message count cannot be read is skipped
whole; a folder whose subfolder count cannot be read keeps its
already-processed messages and skips only its subfolders; a raise while
retrieving subfolder i aborts that folder's remaining subfolder
iterations (so the siblings AFTER the failing handle are skipped too,
while everything already collected is kept); and a folder that fails
internally leaves its own siblings' processing untouched.  No such
failure terminates the run. -/
theorem C5_amended :
    (∀ (msgs : List (Except Unit RawMessage)) (numSubs : Except Unit Nat)
       (subs : FolderList) (st : St),
      process_pst_folder (FolderNode.mk (Except.error ()) msgs numSubs subs) st = st)
    ∧ (∀ (n : Nat) (msgs : List (Except Unit RawMessage)) (subs : FolderList) (st : St),
      process_pst_folder (FolderNode.mk (Except.ok n) msgs (Except.error ()) subs) st
        = processMsgsLoop msgs n st)
    ∧ (∀ (rest : FolderList) (n : Nat) (st : St),
      processSubsLoop (FolderList.cons FolderSlot.err rest) (n + 1) st = st)
    ∧ (∀ (f : FolderNode) (rest : FolderList) (n : Nat) (st : St),
      process_pst_folder f st = st →
      processSubsLoop (FolderList.cons (FolderSlot.ok f) rest) (n + 1) st
        = processSubsLoop rest n st) := by
  refine ⟨fun msgs numSubs subs st => rfl, fun n msgs subs st => rfl,
    fun rest n st => rfl, fun f rest n st h => ?_⟩
  rw [show processSubsLoop (FolderList.cons (FolderSlot.ok f) rest) (n + 1) st
        = processSubsLoop rest n (process_pst_folder f st) from rfl, h]

/-- Witness for C5 amended: a subfolder whose own counts are unreadable
is skipped while its following sibling in the same list is still
processed. -/
theorem C5_amended_witness :
    processSubsLoop
      (FolderList.cons
        (FolderSlot.ok (FolderNode.mk (Except.error ()) [] (Except.ok 0) FolderList.nil))
        (FolderList.cons (FolderSlot.ok goodLeafFolder) FolderList.nil))
      2 (stInit [])
    = processSubsLoop (FolderList.cons (FolderSlot.ok goodLeafFolder) FolderList.nil) 1 (stInit []) :=
  C5_amended.2.2.2 (FolderNode.mk (Except.error ()) [] (Except.ok 0) FolderList.nil)
    (FolderList.cons (FolderSlot.ok goodLeafFolder) FolderList.nil) 1 (stInit [])
    (C5_amended.1 [] (Except.ok 0) FolderList.nil (stInit []))

/-- A concrete one-message readable folder for the dual-sink
counterexample. -/
def oneMsgFolder : FolderNode :=
  FolderNode.mk (Except.ok 1) [Except.ok (mkMsg ("a") ("s") ("b") ("") (some ("d")))]
    (Except.ok 0) FolderList.nil

/-- Counterexample to C4: run oneMsgFolder with a writer whose call 1
(the first record row; the header was call 0) raises.  The build
succeeds, the record is appended to the in-memory list (src/app.py
line 111), and only then does writerow raise (line 112): the except at
line 121 continues, leaving the record present in the in-memory sink
and absent from the tabular sink — emission is not atomic. -/
theorem C4_counterexample :
    (process_pst_folder oneMsgFolder (stInit [1])).emails = [goodLeafRecord]
    ∧ (process_pst_folder oneMsgFolder (stInit [1])).csv.rows = [headerRow] := by
  decide

/-- C4 amended: per message the two sink writes are NOT one atomic
step.  When the build succeeds but the tabular write raises, the record
has already been appended to the in-memory collection and stays there,
while the tabular sink gains no row; the failure is caught by the
message-level except and traversal continues.  Only a failure during
record construction (before the append) keeps the record out of both
sinks. -/
theorem C4_amended :
    (∀ (slot : Except Unit RawMessage) (st : St) (r : Record),
      msgRecordOf slot = some r → st.csv.calls ∈ st.csv.failAt →
      processMessage slot st =
        { emails := st.emails ++ [r],
          csv := { rows := st.csv.rows, failAt := st.csv.failAt, calls := st.csv.calls + 1 } })
    ∧ (∀ (slot : Except Unit RawMessage) (st : St),
      msgRecordOf slot = Option.none → processMessage slot st = st) := by
  constructor
  · intro slot st r hr hfail
    rw [processMessage_some slot st r hr]
    simp [writerow, hfail]
  · intro slot st h
    exact processMessage_none slot st h

/-- Witness for C4 amended: at a concrete message and a concrete state
whose next writerow call raises, the record lands in the in-memory sink
only; and a concrete failing build leaves the state untouched. -/
theorem C4_amended_witness :
    processMessage (Except.ok (mkMsg ("a") ("s") ("b") ("") (some ("d")))) (stInit [1])
      = { emails := [goodLeafRecord],
          csv := { rows := [headerRow], failAt := [1], calls := 2 } }
    ∧ processMessage (Except.ok mkBadMsg) (stInit []) = stInit [] :=
  ⟨C4_amended.1 (Except.ok (mkMsg ("a") ("s") ("b") ("") (some ("d")))) (stInit [1])
      goodLeafRecord (by decide) (by decide),
   C4_amended.2 (Except.ok mkBadMsg) (stInit []) (by decide)⟩

/-- C1: in a folder with accurate counts in which exactly one message
slot among N ≥ 2 siblings fails during record construction, the whole
run state equals the run on the same folder with the failing message
absent — the surviving records have the same content and relative
order — and when every other sibling builds, the folder contributes
exactly N − 1 records; the run does not abort. -/
theorem C1_isolation :
    ∀ (pre post : List (Except Unit RawMessage)) (bad : Except Unit RawMessage)
      (numSubs : Except Unit Nat) (subs : FolderList) (st : St),
    msgRecordOf bad = Option.none →
    2 ≤ pre.length + 1 + post.length →
    (process_pst_folder
        (FolderNode.mk (Except.ok (pre.length + 1 + post.length)) (pre ++ bad :: post) numSubs subs) st
      = process_pst_folder
        (FolderNode.mk (Except.ok (pre.length + post.length)) (pre ++ post) numSubs subs) st)
    ∧ ((∀ s ∈ pre ++ post, (msgRecordOf s).isSome = true) →
      (process_pst_folder
          (FolderNode.mk (Except.ok (pre.length + 1 + post.length)) (pre ++ bad :: post)
            (Except.ok 0) FolderList.nil) st).emails.length
        = st.emails.length + (pre.length + post.length)) := by
  intro pre post bad numSubs subs st hbad _
  have hlen1 : pre.length + 1 + post.length = (pre ++ bad :: post).length := by
    simp only [List.length_append, List.length_cons]; omega
  have hlen2 : pre.length + post.length = (pre ++ post).length := by
    simp only [List.length_append]
  have hloops : processMsgsLoop (pre ++ bad :: post) (pre.length + 1 + post.length) st
      = processMsgsLoop (pre ++ post) (pre.length + post.length) st := by
    rw [hlen1, hlen2, processMsgsLoop_eq_foldl, processMsgsLoop_eq_foldl]
    rw [List.foldl_append, List.foldl_append]
    rw [show List.foldl (fun s slot => processMessage slot s) (List.foldl (fun s slot => processMessage slot s) st pre) (bad :: post)
          = List.foldl (fun s slot => processMessage slot s)
              (processMessage bad (List.foldl (fun s slot => processMessage slot s) st pre)) post from rfl]
    rw [processMessage_none bad _ hbad]
  constructor
  · cases numSubs with
    | error e =>
      rw [show process_pst_folder (FolderNode.mk (Except.ok (pre.length + 1 + post.length)) (pre ++ bad :: post) (Except.error e) subs) st
            = processMsgsLoop (pre ++ bad :: post) (pre.length + 1 + post.length) st from rfl]
      rw [show process_pst_folder (FolderNode.mk (Except.ok (pre.length + post.length)) (pre ++ post) (Except.error e) subs) st
            = processMsgsLoop (pre ++ post) (pre.length + post.length) st from rfl]
      exact hloops
    | ok sc =>
      rw [show process_pst_folder (FolderNode.mk (Except.ok (pre.length + 1 + post.length)) (pre ++ bad :: post) (Except.ok sc) subs) st
            = processSubsLoop subs sc (processMsgsLoop (pre ++ bad :: post) (pre.length + 1 + post.length) st) from rfl]
      rw [show process_pst_folder (FolderNode.mk (Except.ok (pre.length + post.length)) (pre ++ post) (Except.ok sc) subs) st
            = processSubsLoop subs sc (processMsgsLoop (pre ++ post) (pre.length + post.length) st) from rfl]
      rw [hloops]
  · intro hall
    rw [process_pst_folder_emails]
    rw [show emailsOf (FolderNode.mk (Except.ok (pre.length + 1 + post.length)) (pre ++ bad :: post) (Except.ok 0) FolderList.nil)
          = emailsOfMsgsLoop (pre ++ bad :: post) (pre.length + 1 + post.length)
            ++ emailsOfSubs FolderList.nil 0 from rfl]
    rw [show emailsOfSubs FolderList.nil 0 = [] from rfl]
    rw [hlen1, emailsOfMsgsLoop_eq_filterMap]
    rw [List.filterMap_append, List.filterMap_cons, hbad]
    simp only [List.append_nil, List.length_append]
    rw [length_filterMap_isSome msgRecordOf pre
        (fun x hm => hall x (List.mem_append_left post hm)),
      length_filterMap_isSome msgRecordOf post
        (fun x hm => hall x (List.mem_append_right pre hm))]

/-- Witness for C1: a concrete folder with one failing message between
two good ones equals the two-message folder with it removed, and
contributes exactly two records. -/
theorem C1_isolation_witness :
    (process_pst_folder
        (FolderNode.mk (Except.ok 3)
          [Except.ok (mkMsg ("a") ("s") ("b") ("") (some ("d"))), Except.ok mkBadMsg,
           Except.ok (mkMsg ("c") ("t") ("e") ("") (some ("f")))]
          (Except.ok 0) FolderList.nil) (stInit [])
      = process_pst_folder
        (FolderNode.mk (Except.ok 2)
          [Except.ok (mkMsg ("a") ("s") ("b") ("") (some ("d"))),
           Except.ok (mkMsg ("c") ("t") ("e") ("") (some ("f")))]
          (Except.ok 0) FolderList.nil) (stInit []))
    ∧ (process_pst_folder
        (FolderNode.mk (Except.ok 3)
          [Except.ok (mkMsg ("a") ("s") ("b") ("") (some ("d"))), Except.ok mkBadMsg,
           Except.ok (mkMsg ("c") ("t") ("e") ("") (some ("f")))]
          (Except.ok 0) FolderList.nil) (stInit [])).emails.length
      = (stInit []).emails.length + 2 :=
  ⟨(C1_isolation [Except.ok (mkMsg ("a") ("s") ("b") ("") (some ("d")))]
      [Except.ok (mkMsg ("c") ("t") ("e") ("") (some ("f")))] (Except.ok mkBadMsg)
      (Except.ok 0) FolderList.nil (stInit []) (by decide) (by decide)).1,
   (C1_isolation [Except.ok (mkMsg ("a") ("s") ("b") ("") (some ("d")))]
      [Except.ok (mkMsg ("c") ("t") ("e") ("") (some ("f")))] (Except.ok mkBadMsg)
      (Except.ok 0) FolderList.nil (stInit []) (by decide) (by decide)).2 (by decide)⟩

/-- C2: on every readable folder tree (accurate counts, retrievable
subfolder handles) the produced record sequence is exactly the
spec-side depth-first, messages-before-subfolders traversal order —
all messages of the current folder in index order, then each subfolder
in index order recursively — appended to whatever was already
collected; the order is a function of the tree, hence deterministic. -/
theorem C2_ordering : ∀ (f : FolderNode) (st : St), wfFolder f = true →
    (process_pst_folder f st).emails = st.emails ++ dfsSpec f := by
  intro f st h
  rw [process_pst_folder_emails, emailsOf_eq_dfsSpec f h]

/-- A concrete two-level readable tree: two root messages, then a
subfolder with one message. -/
def twoLevelTree : FolderNode :=
  FolderNode.mk (Except.ok 2)
    [Except.ok (mkMsg ("a") ("s") ("b") ("") (some ("d"))),
     Except.ok (mkMsg ("c") ("t") ("e") ("") (some ("f")))]
    (Except.ok 1) (FolderList.cons (FolderSlot.ok goodLeafFolder) FolderList.nil)

/-- Witness for C2: the two-level tree is readable and its run produces
the spec-side order. -/
theorem C2_ordering_witness :
    wfFolder twoLevelTree = true
    ∧ (process_pst_folder twoLevelTree (stInit [])).emails
      = (stInit []).emails ++ dfsSpec twoLevelTree :=
  ⟨by decide, C2_ordering twoLevelTree (stInit []) (by decide)⟩

/-- A concrete two-message readable folder for the dual-sink
counterexample. -/
def twoMsgFolder : FolderNode :=
  FolderNode.mk (Except.ok 2)
    [Except.ok (mkMsg ("a") ("s") ("b") ("") (some ("d"))),
     Except.ok (mkMsg ("c") ("t") ("e") ("") (some ("f")))]
    (Except.ok 0) FolderList.nil

/-- The record twoMsgFolder's second message builds. -/
def secondRecord : Record :=
  { from_ := "c", to_ := "", subject := "t", body := "e", date := "f", attachments := [] }

/-- Counterexample to C3: run twoMsgFolder through the route with a
writer whose call 2 (the second record row) raises.  The run succeeds
with two in-memory records but only one record row: the tabular
payload is NOT the header row followed by one row per in-memory
record, so the dual-sink equivalence does not hold for every run. -/
theorem C3_counterexample :
    analyze_pst (Except.ok twoMsgFolder) [2]
      = RouteResult.success [goodLeafRecord, secondRecord] [headerRow, csvRowOf goodLeafRecord]
    ∧ [headerRow, csvRowOf goodLeafRecord]
      ≠ headerRow :: ([goodLeafRecord, secondRecord].map csvRowOf) := by
  constructor
  · decide
  · intro h
    have := congrArg List.length h
    simp at this

/-- C3 amended: for every run in which no tabular write fails, the
tabular payload is the fixed header row followed by one row per
in-memory record, in the same order, each row being the record's six
fields with the attachment names joined by the literal `, ` separator;
such a nonempty run is reported to the caller with exactly these two
facets. -/
theorem C3_dual_sink : ∀ root : FolderNode,
    (process_pst_folder root (stInit [])).csv.rows
      = headerRow :: ((process_pst_folder root (stInit [])).emails.map csvRowOf)
    ∧ ((process_pst_folder root (stInit [])).emails ≠ [] →
      analyze_pst (Except.ok root) []
        = RouteResult.success (process_pst_folder root (stInit [])).emails
            (headerRow :: ((process_pst_folder root (stInit [])).emails.map csvRowOf))) := by
  intro root
  have hrun := process_pst_folder_nofail root (stInit []) rfl
  constructor
  · rw [hrun]; simp [stInit]
  · intro hne
    have hw : writerow { rows := [], failAt := [], calls := 0 } headerRow
        = ({ rows := [headerRow], failAt := [], calls := 1 }, Except.ok ()) := by decide
    simp only [analyze_pst, hw]
    have hlen : (process_pst_folder root (stInit [])).emails.length ≠ 0 := by
      intro h0
      exact hne (List.eq_nil_of_length_eq_zero h0)
    rw [show ({ emails := [], csv := { rows := [headerRow], failAt := [], calls := 1 } } : St)
          = stInit [] from rfl]
    rw [if_neg hlen, hrun]
    simp [stInit]

/-- Witness for C3 amended: the two-message folder's no-failure run is
reported with its two records and the matching three-row payload. -/
theorem C3_dual_sink_witness :
    analyze_pst (Except.ok twoMsgFolder) []
      = RouteResult.success (process_pst_folder twoMsgFolder (stInit [])).emails
          (headerRow :: ((process_pst_folder twoMsgFolder (stInit [])).emails.map csvRowOf)) :=
  (C3_dual_sink twoMsgFolder).2 (by decide)

/-- C9: a run that completes with zero extracted records — whatever
the tree, including one whose folders contain no messages anywhere —
is reported to the caller as the empty-result error, which is a
different outcome from the adapter-open failure (the catch-all 500)
and from node-read failures (which are swallowed inside the walk and
never surface); the traversal itself is total, so the run does not
crash. -/
theorem C9_empty_result : ∀ (root : FolderNode) (failAt : List Nat),
    ¬ 0 ∈ failAt → emailsOf root = [] →
    analyze_pst (Except.ok root) failAt = RouteResult.emptyError
    ∧ analyze_pst (Except.error ()) failAt = RouteResult.serverError
    ∧ RouteResult.emptyError ≠ RouteResult.serverError := by
  intro root failAt h0 hroot
  refine ⟨?_, rfl, by simp⟩
  have hw : writerow { rows := [], failAt := failAt, calls := 0 } headerRow
      = ({ rows := [headerRow], failAt := failAt, calls := 1 }, Except.ok ()) := by
    simp [writerow, h0]
  simp only [analyze_pst, hw]
  rw [if_pos]
  rw [process_pst_folder_emails, hroot]
  simp

/-- A concrete messageless two-level tree: the root has no messages and
one subfolder which itself has no messages and no subfolders. -/
def emptyTree : FolderNode :=
  FolderNode.mk (Except.ok 0) [] (Except.ok 1)
    (FolderList.cons (FolderSlot.ok (FolderNode.mk (Except.ok 0) [] (Except.ok 0) FolderList.nil))
      FolderList.nil)

/-- Witness for C9: the messageless tree yields the empty-result error
and the adapter-open failure yields the distinct server error. -/
theorem C9_empty_result_witness :
    analyze_pst (Except.ok emptyTree) [] = RouteResult.emptyError
    ∧ analyze_pst (Except.error ()) [] = RouteResult.serverError :=
  ⟨(C9_empty_result emptyTree [] (by decide) (by decide)).1,
   (C9_empty_result emptyTree [] (by decide) (by decide)).2.1⟩



/-- One-step unfolding of the decoder on a nonempty byte list. -/
theorem utf8DecodeAux_cons (b0 : Nat) (rest : List Nat) :
    utf8DecodeAux (b0 :: rest) =
      if b0 < 0x80 then (utf8DecodeAux rest).map (fun cps => b0 :: cps)
      else if b0 < 0xC0 then Option.none
      else if b0 < 0xE0 then utf8Dec2 b0 rest
      else if b0 < 0xF0 then utf8Dec3 b0 rest
      else if b0 < 0xF8 then utf8Dec4 b0 rest
      else Option.none := by
  simp only [utf8DecodeAux]

/-- One-step unfolding of the two-byte continuation. -/
theorem utf8Dec2_cons (b0 b1 : Nat) (rest1 : List Nat) :
    utf8Dec2 b0 (b1 :: rest1) =
      if 0x80 ≤ b1 ∧ b1 < 0xC0 then
        if 0x80 ≤ (b0 - 0xC0) * 0x40 + (b1 - 0x80) then
          (utf8DecodeAux rest1).map (fun cps => ((b0 - 0xC0) * 0x40 + (b1 - 0x80)) :: cps)
        else Option.none
      else Option.none := by
  simp only [utf8Dec2]

/-- One-step unfolding of the three-byte continuation. -/
theorem utf8Dec3_cons (b0 b1 b2 : Nat) (rest2 : List Nat) :
    utf8Dec3 b0 (b1 :: b2 :: rest2) =
      if (0x80 ≤ b1 ∧ b1 < 0xC0) ∧ (0x80 ≤ b2 ∧ b2 < 0xC0) then
        if 0x800 ≤ (b0 - 0xE0) * 0x1000 + (b1 - 0x80) * 0x40 + (b2 - 0x80)
            ∧ ¬ (0xD800 ≤ (b0 - 0xE0) * 0x1000 + (b1 - 0x80) * 0x40 + (b2 - 0x80)
                ∧ (b0 - 0xE0) * 0x1000 + (b1 - 0x80) * 0x40 + (b2 - 0x80) < 0xE000) then
          (utf8DecodeAux rest2).map
            (fun cps => ((b0 - 0xE0) * 0x1000 + (b1 - 0x80) * 0x40 + (b2 - 0x80)) :: cps)
        else Option.none
      else Option.none := by
  simp only [utf8Dec3]

/-- One-step unfolding of the four-byte continuation. -/
theorem utf8Dec4_cons (b0 b1 b2 b3 : Nat) (rest3 : List Nat) :
    utf8Dec4 b0 (b1 :: b2 :: b3 :: rest3) =
      if (0x80 ≤ b1 ∧ b1 < 0xC0) ∧ (0x80 ≤ b2 ∧ b2 < 0xC0) ∧ (0x80 ≤ b3 ∧ b3 < 0xC0) then
        if 0x10000 ≤ (b0 - 0xF0) * 0x40000 + (b1 - 0x80) * 0x1000 + (b2 - 0x80) * 0x40 + (b3 - 0x80)
            ∧ (b0 - 0xF0) * 0x40000 + (b1 - 0x80) * 0x1000 + (b2 - 0x80) * 0x40 + (b3 - 0x80) < 0x110000 then
          (utf8DecodeAux rest3).map
            (fun cps => ((b0 - 0xF0) * 0x40000 + (b1 - 0x80) * 0x1000
              + (b2 - 0x80) * 0x40 + (b3 - 0x80)) :: cps)
        else Option.none
      else Option.none := by
  simp only [utf8Dec4]

/-- Decoding an encoded scalar value prepended to any byte tail yields
that scalar value prepended to the decoded tail. -/
theorem utf8DecodeAux_encodeChar (c : Nat)
    (hv : c < 0xD800 ∨ (0xE000 ≤ c ∧ c < 0x110000)) (rest : List Nat) :
    utf8DecodeAux (utf8EncodeChar c ++ rest)
      = (utf8DecodeAux rest).map (fun cps => c :: cps) := by
  by_cases h1 : c < 0x80
  · have he : utf8EncodeChar c = [c] := by rw [utf8EncodeChar, if_pos h1]
    rw [he]
    show utf8DecodeAux (c :: rest) = _
    rw [utf8DecodeAux_cons, if_pos h1]
  · by_cases h2 : c < 0x800
    · have he : utf8EncodeChar c = [0xC0 + c / 0x40, 0x80 + c % 0x40] := by
        rw [utf8EncodeChar, if_neg h1, if_pos h2]
      rw [he]
      show utf8DecodeAux ((0xC0 + c / 0x40) :: (0x80 + c % 0x40) :: rest) = _
      rw [utf8DecodeAux_cons, if_neg (by omega), if_neg (by omega), if_pos (by omega)]
      rw [utf8Dec2_cons, if_pos (by omega)]
      have hc : (0xC0 + c / 0x40 - 0xC0) * 0x40 + (0x80 + c % 0x40 - 0x80) = c := by omega
      rw [hc, if_pos (by omega)]
    · by_cases h3 : c < 0x10000
      · have he : utf8EncodeChar c
            = [0xE0 + c / 0x1000, 0x80 + c / 0x40 % 0x40, 0x80 + c % 0x40] := by
          rw [utf8EncodeChar, if_neg h1, if_neg h2, if_pos h3]
        rw [he]
        show utf8DecodeAux
            ((0xE0 + c / 0x1000) :: (0x80 + c / 0x40 % 0x40) :: (0x80 + c % 0x40) :: rest) = _
        rw [utf8DecodeAux_cons, if_neg (by omega), if_neg (by omega), if_neg (by omega),
          if_pos (by omega)]
        rw [utf8Dec3_cons, if_pos (by omega)]
        have hc : (0xE0 + c / 0x1000 - 0xE0) * 0x1000
            + (0x80 + c / 0x40 % 0x40 - 0x80) * 0x40 + (0x80 + c % 0x40 - 0x80) = c := by
          omega
        rw [hc, if_pos (by omega)]
      · have h4 : c < 0x110000 := by omega
        have he : utf8EncodeChar c
            = [0xF0 + c / 0x40000, 0x80 + c / 0x1000 % 0x40,
               0x80 + c / 0x40 % 0x40, 0x80 + c % 0x40] := by
          rw [utf8EncodeChar, if_neg h1, if_neg h2, if_neg h3]
        rw [he]
        show utf8DecodeAux ((0xF0 + c / 0x40000) :: (0x80 + c / 0x1000 % 0x40)
            :: (0x80 + c / 0x40 % 0x40) :: (0x80 + c % 0x40) :: rest) = _
        rw [utf8DecodeAux_cons, if_neg (by omega), if_neg (by omega), if_neg (by omega),
          if_neg (by omega), if_pos (by omega)]
        rw [utf8Dec4_cons, if_pos (by omega)]
        have hc : (0xF0 + c / 0x40000 - 0xF0) * 0x40000
            + (0x80 + c / 0x1000 % 0x40 - 0x80) * 0x1000
            + (0x80 + c / 0x40 % 0x40 - 0x80) * 0x40 + (0x80 + c % 0x40 - 0x80) = c := by
          omega
        rw [hc, if_pos (by omega)]

/-- Every Lean Char carries a valid Unicode scalar value. -/
theorem char_toNat_valid (c : Char) :
    c.toNat < 0xD800 ∨ (0xE000 ≤ c.toNat ∧ c.toNat < 0x110000) := by
  have hval := c.valid
  simp only [UInt32.isValidChar, Nat.isValidChar] at hval
  simp only [Char.toNat]
  rcases hval with h | ⟨h1, h2⟩
  · exact Or.inl h
  · exact Or.inr ⟨by omega, h2⟩

/-- Decoding the encoding of a character list yields its scalar
values. -/
theorem utf8DecodeAux_encode_data : ∀ l : List Char,
    utf8DecodeAux ((l.map (fun ch => utf8EncodeChar ch.toNat)).flatten)
      = some (l.map Char.toNat) := by
  intro l
  induction l with
  | nil => rfl
  | cons c rest ih =>
    simp only [List.map_cons, List.flatten_cons]
    rw [utf8DecodeAux_encodeChar c.toNat (char_toNat_valid c), ih]
    rfl

/-- The decoder succeeds on every encoded string and returns it: the
UTF-8 round trip. -/
theorem utf8Decode_encode (s : String) : utf8Decode (utf8Encode s) = some s := by
  rw [utf8Decode, utf8Encode, utf8DecodeAux_encode_data]
  simp only [Option.map, Option.some.injEq]
  rw [List.map_map]
  have hmap : s.data.map (Char.ofNat ∘ Char.toNat) = s.data.map id :=
    List.map_congr_left (fun c _ => Char.ofNat_toNat c)
  rw [hmap, List.map_id]

/-- A successful decode of a nonempty byte list is nonempty. -/
theorem utf8DecodeAux_cons_ne_nil (b : Nat) (rest : List Nat) (cps : List Nat)
    (h : utf8DecodeAux (b :: rest) = some cps) : cps ≠ [] := by
  have hmap : ∀ (o : Option (List Nat)) (cp : Nat),
      o.map (fun cps2 => cp :: cps2) = some cps → cps ≠ [] := by
    intro o cp hm
    cases o with
    | none => simp [Option.map] at hm
    | some l =>
      simp only [Option.map, Option.some.injEq] at hm
      rw [← hm]
      simp
  rw [utf8DecodeAux_cons] at h
  split at h
  · exact hmap _ _ h
  · split at h
    · simp at h
    · split at h
      · cases rest with
        | nil => simp [utf8Dec2] at h
        | cons b1 rest1 =>
          rw [utf8Dec2_cons] at h
          split at h
          · split at h
            · exact hmap _ _ h
            · simp at h
          · simp at h
      · split at h
        · cases rest with
          | nil => simp [utf8Dec3] at h
          | cons b1 rest1 =>
            cases rest1 with
            | nil => simp [utf8Dec3] at h
            | cons b2 rest2 =>
              rw [utf8Dec3_cons] at h
              split at h
              · split at h
                · exact hmap _ _ h
                · simp at h
              · simp at h
        · split at h
          · cases rest with
            | nil => simp [utf8Dec4] at h
            | cons b1 rest1 =>
              cases rest1 with
              | nil => simp [utf8Dec4] at h
              | cons b2 rest2 =>
                cases rest2 with
                | nil => simp [utf8Dec4] at h
                | cons b3 rest3 =>
                  rw [utf8Dec4_cons] at h
                  split at h
                  · split at h
                    · exact hmap _ _ h
                    · simp at h
                  · simp at h
          · simp at h

/-- A string made of a nonempty character list is not the empty
string. -/
theorem stringMk_cons_ne_empty (c : Char) (l : List Char) : String.mk (c :: l) ≠ "" := by
  intro h
  have hdata := congrArg String.data h
  simp at hdata

/-- C6: the field normalizer is total and always returns a string (in
the model it is a function into String, and every Python raise inside
it is caught): absent input yields the empty string; text input is
returned unchanged; a byte sequence that is valid UTF-8 — here, any
UTF-8 encoding of a string — decodes to that string; an invalid-UTF-8
byte sequence falls back to its Latin-1 decoding, which maps each byte
to the corresponding code point and never fails, so the final
`str(value)` fallback is unreachable; a nonempty byte sequence never
yields the empty string. -/
theorem C6_decode_total :
    (decode_if_bytes PyVal.none = "")
    ∧ (∀ s : String, decode_if_bytes (PyVal.str s) = s)
    ∧ (∀ s : String, decode_if_bytes (PyVal.bytes (utf8Encode s)) = s)
    ∧ (∀ bs : List Nat, isValidUtf8 bs = false →
      decode_if_bytes (PyVal.bytes bs) = latin1Decode bs)
    ∧ (∀ (b : Nat) (bs : List Nat), decode_if_bytes (PyVal.bytes (b :: bs)) ≠ "") := by
  refine ⟨rfl, fun s => rfl, ?_, ?_, ?_⟩
  · intro s
    simp only [decode_if_bytes, utf8Decode_encode]
  · intro bs hinv
    simp only [isValidUtf8, Option.isSome] at hinv
    cases hdec : utf8DecodeAux bs with
    | none => simp [decode_if_bytes, utf8Decode, hdec, Option.map]
    | some cps => rw [hdec] at hinv; simp at hinv
  · intro b bs
    cases hdec : utf8DecodeAux (b :: bs) with
    | none =>
      simp only [decode_if_bytes, utf8Decode, hdec, Option.map, latin1Decode, List.map_cons]
      exact stringMk_cons_ne_empty (Char.ofNat b) (bs.map Char.ofNat)
    | some cps =>
      simp only [decode_if_bytes, utf8Decode, hdec, Option.map]
      cases cps with
      | nil => exact absurd rfl (utf8DecodeAux_cons_ne_nil b bs [] hdec)
      | cons cp cps2 =>
        simp only [List.map_cons]
        exact stringMk_cons_ne_empty (Char.ofNat cp) (cps2.map Char.ofNat)

/-- Witness for C6: the two-byte UTF-8 encoding of a string decodes
back to it, the invalid byte 0xFF falls back to Latin-1, and a
nonempty undecodable byte sequence still yields a nonempty string. -/
theorem C6_decode_total_witness :
    decode_if_bytes (PyVal.bytes (utf8Encode ("héllo"))) = "héllo"
    ∧ decode_if_bytes (PyVal.bytes [0xFF, 0x61]) = latin1Decode [0xFF, 0x61]
    ∧ decode_if_bytes (PyVal.bytes [0xFF]) ≠ "" :=
  ⟨C6_decode_total.2.2.1 ("héllo"),
   C6_decode_total.2.2.2.1 [0xFF, 0x61] (by decide),
   C6_decode_total.2.2.2.2 0xFF []⟩
